import Mathlib

/-!
# Verification of the XCMP queue pallet (`pallets/xcmp-queue/src/lib.rs`)

A shallow embedding of the cross-chain message-queue engine: the storage
items (`InboundXcmpStatus`, `InboundXcmpMessages`, `OutboundXcmpStatus`,
`OutboundXcmpMessages`, `SignalMessages`) are modelled as association lists
inside one `XcmpState` record, and each pallet function is translated to a
pure Lean function over that state.  External collaborators (the XCM
executor, the channel-info provider, the ChaCha PRNG stream and the SCALE
decoders for `VersionedXcm`/`Vec<u8>` fragments) are parameters collected in
an `Env` record, exactly as they are trait parameters or library calls in
the source.  Machine integers (`Weight = u64`, page indices `u16`,
`RelayBlockNumber = u32`) are modelled as `Nat`; the source never relies on
wrap-around for these quantities in the behaviours studied here, and Rust's
`saturating_sub` coincides with truncated `Nat` subtraction.  A Rust panic
(the `rotate_left` underflow in `take_outbound_messages`) is modelled by
returning `none`.
-/

namespace XcmpQueue

/-- Source `ParaId`: opaque identifier of a sibling chain. -/
abbrev ParaId := Nat

/-- Relay-chain block number at which a batch was sent. -/
abbrev RelayBlockNumber := Nat

/-- Execution weight (`u64` in the source). -/
abbrev Weight := Nat

/-- Raw storage bytes (`Vec<u8>`), each byte a `Nat < 256`. -/
abbrev Bytes := List Nat

/-- Source `InboundStatus` from the source. -/
inductive InboundStatus where
  | Ok
  | Suspended
deriving DecidableEq

/-- Source `OutboundStatus` from the source. -/
inductive OutboundStatus where
  | Ok
  | Suspended
deriving DecidableEq

/-- Source `ChannelSignal` from the source. -/
inductive ChannelSignal where
  | Suspend
  | Resume
deriving DecidableEq

/-- Source `XcmpMessageFormat` from the source. -/
inductive XcmpMessageFormat where
  | ConcatenatedVersionedXcm
  | ConcatenatedEncodedBlob
  | Signals
deriving DecidableEq

/-- SCALE encoding of `XcmpMessageFormat` (one tag byte). -/
def XcmpMessageFormat.encode : XcmpMessageFormat → Bytes
  | .ConcatenatedVersionedXcm => [0]
  | .ConcatenatedEncodedBlob => [1]
  | .Signals => [2]

/-- SCALE encoding of `ChannelSignal` (one tag byte). -/
def ChannelSignal.encode : ChannelSignal → Bytes
  | .Suspend => [0]
  | .Resume => [1]

/-- Source `XcmpMessageFormat::decode`: read the leading tag byte. -/
def decodeFormat : Bytes → Option XcmpMessageFormat
  | 0 :: _ => some .ConcatenatedVersionedXcm
  | 1 :: _ => some .ConcatenatedEncodedBlob
  | 2 :: _ => some .Signals
  | _ => none

/-- Source `MessageSendError` variants used by `send_fragment`. -/
inductive MessageSendError where
  | NoChannel
  | TooBig
deriving DecidableEq

/-- Source `ChannelStatus` reported by the channel-info provider. -/
inductive ChannelStatus where
  | Closed
  | Full
  | Ready (maxNow : Nat) (maxEver : Nat)
deriving DecidableEq

/-! ## Association-list maps standing for the storage double-maps -/

/-- Lookup in a storage map. -/
def mapLookup {κ : Type} [DecidableEq κ] : List (κ × Bytes) → κ → Option Bytes
  | [], _ => none
  | kv :: rest, k => if kv.1 = k then some kv.2 else mapLookup rest k

/-- Storage `get` with the storage default (empty byte vector). -/
def mapGet {κ : Type} [DecidableEq κ] (m : List (κ × Bytes)) (k : κ) : Bytes :=
  (mapLookup m k).getD []

/-- Remove a key from a storage map. -/
def mapRemove {κ : Type} [DecidableEq κ] : List (κ × Bytes) → κ → List (κ × Bytes)
  | [], _ => []
  | kv :: rest, k => if kv.1 = k then mapRemove rest k else kv :: mapRemove rest k

/-- Insert (set) a key in a storage map. -/
def mapInsert {κ : Type} [DecidableEq κ] (m : List (κ × Bytes)) (k : κ) (v : Bytes) :
    List (κ × Bytes) :=
  (k, v) :: mapRemove m k

/-- Does the map contain the key? -/
def mapContains {κ : Type} [DecidableEq κ] (m : List (κ × Bytes)) (k : κ) : Bool :=
  (mapLookup m k).isSome

/-! ## Status records and the global storage state -/

/-- One record of `InboundXcmpStatus`:
`(ParaId, InboundStatus, Vec<(RelayBlockNumber, XcmpMessageFormat)>)`. -/
structure InboundEntry where
  para : ParaId
  state : InboundStatus
  pages : List (RelayBlockNumber × XcmpMessageFormat)
deriving DecidableEq

instance : Inhabited InboundEntry := ⟨⟨0, .Ok, []⟩⟩

/-- One record of `OutboundXcmpStatus`:
`(ParaId, OutboundStatus, bool, u16, u16)`. -/
structure OutboundEntry where
  para : ParaId
  state : OutboundStatus
  signalling : Bool
  beginIdx : Nat
  endIdx : Nat
deriving DecidableEq

instance : Inhabited OutboundEntry := ⟨⟨0, .Ok, false, 0, 0⟩⟩

/-- The five storage items of the pallet. -/
structure XcmpState where
  inboundXcmpStatus : List InboundEntry
  inboundXcmpMessages : List ((ParaId × RelayBlockNumber) × Bytes)
  outboundXcmpStatus : List OutboundEntry
  outboundXcmpMessages : List ((ParaId × Nat) × Bytes)
  signalMessages : List (ParaId × Bytes)
deriving DecidableEq

/-! ## List helpers mirroring `Vec` index updates -/

/-- Update the element at position `i` (out-of-range is the identity),
mirroring `v[i] = f(v[i])`. -/
def updateAt {α : Type} : List α → Nat → (α → α) → List α
  | [], _, _ => []
  | x :: xs, 0, f => f x :: xs
  | x :: xs, n + 1, f => x :: updateAt xs n f

/-- Stable insertion by a `Nat` key, auxiliary to `sortByKeyNat`. -/
def insertByKeyNat {α : Type} (key : α → Nat) (x : α) : List α → List α
  | [] => [x]
  | y :: ys => if key y ≤ key x then y :: insertByKeyNat key x ys else x :: y :: ys

/-- Stable sort by a `Nat` key, mirroring `Vec::sort` / `sort_by_key` for
lists whose keys are distinct (the pallet keeps one record per para). -/
def sortByKeyNat {α : Type} (key : α → Nat) (l : List α) : List α :=
  l.foldl (fun acc x => insertByKeyNat key x acc) []

/-- Source `slice::rotate_left` for a rotation amount known to be in range. -/
def rotateLeftExact {α : Type} (l : List α) (n : Nat) : List α :=
  l.drop n ++ l.take n

/-! ## Signal sending (`send_signal`, lines 224-239) -/

/-- The `OutboundXcmpStatus` update of `send_signal`: set the signalling
flag on the first record for `dest`, or push a fresh
`(dest, Ok, true, 0, 0)` record if none exists. -/
def setSignallingList : List OutboundEntry → ParaId → List OutboundEntry
  | [], dest => [⟨dest, .Ok, true, 0, 0⟩]
  | e :: rest, dest =>
    if e.para = dest then { e with signalling := true } :: rest
    else e :: setSignallingList rest dest

/-- State effect of `send_signal(dest, signal)`: flag the outbound record
and append the encoded signal to `SignalMessages[dest]`, writing the
`Signals` format tag first when the page was empty. -/
def sendSignalS (dest : ParaId) (signal : ChannelSignal) (st : XcmpState) : XcmpState :=
  let page := mapGet st.signalMessages dest
  let page' :=
    if page = [] then XcmpMessageFormat.Signals.encode ++ signal.encode
    else page ++ signal.encode
  { st with
    outboundXcmpStatus := setSignallingList st.outboundXcmpStatus dest
    signalMessages := mapInsert st.signalMessages dest page' }

/-- Source `send_signal` keeps the source's `Result<(), ()>` signature; the body
has no failure path, so it always returns `ok`. -/
def sendSignal (dest : ParaId) (signal : ChannelSignal) (st : XcmpState) :
    Except Unit XcmpState :=
  .ok (sendSignalS dest signal st)

/-! ## Channel suspend / resume (`suspend_channel`, `resume_channel`) -/

/-- Source `suspend_channel` list update (lines 474-484): set the first matching
record to `Suspended`, or push `(target, Suspended, false, 0, 0)`. -/
def suspendChannelList : List OutboundEntry → ParaId → List OutboundEntry
  | [], target => [⟨target, .Suspended, false, 0, 0⟩]
  | e :: rest, target =>
    if e.para = target then { e with state := .Suspended } :: rest
    else e :: suspendChannelList rest target

/-- Source `suspend_channel(target)`. -/
def suspendChannel (target : ParaId) (st : XcmpState) : XcmpState :=
  { st with outboundXcmpStatus := suspendChannelList st.outboundXcmpStatus target }

/-- Source `resume_channel` list update (lines 486-500): at the first matching
record, remove it when `begin_idx == end_idx`, else set its status to `Ok`;
no record means no change (a debug warning in the source). -/
def resumeChannelList : List OutboundEntry → ParaId → List OutboundEntry
  | [], _ => []
  | e :: rest, target =>
    if e.para = target then
      if e.beginIdx = e.endIdx then rest
      else { e with state := .Ok } :: rest
    else e :: resumeChannelList rest target

/-- Source `resume_channel(target)`. -/
def resumeChannel (target : ParaId) (st : XcmpState) : XcmpState :=
  { st with outboundXcmpStatus := resumeChannelList st.outboundXcmpStatus target }

/-! ## Outbound assembly (`send_fragment`, lines 178-220) -/

/-- Source `send_fragment(recipient, format, fragment)` over an abstract
`ChannelInfo::get_channel_max` oracle `channelMax`.  `data` stands for the
already SCALE-encoded fragment (`fragment.encode()` in the source). -/
def sendFragment (channelMax : ParaId → Option Nat) (recipient : ParaId)
    (format : XcmpMessageFormat) (data : Bytes) (st : XcmpState) :
    Except MessageSendError (Nat × XcmpState) :=
  match channelMax recipient with
  | none => .error .NoChannel
  | some maxMessageSize =>
    if maxMessageSize < data.length then .error .TooBig
    else
      let s := st.outboundXcmpStatus
      let (s, index) :=
        match s.findIdx? (fun item => item.para = recipient) with
        | some i => (s, i)
        | none => (s ++ [(⟨recipient, .Ok, false, 0, 0⟩ : OutboundEntry)], s.length)
      let entry := s.getD index default
      let haveActive := entry.beginIdx < entry.endIdx
      let curPage := mapGet st.outboundXcmpMessages (recipient, entry.endIdx - 1)
      let canAppend :=
        decodeFormat curPage = some format ∧
          curPage.length + data.length ≤ maxMessageSize
      -- `OutboundXcmpMessages::mutate` writes the (possibly unchanged) page back.
      let pagesAfterMutate :=
        if haveActive then
          mapInsert st.outboundXcmpMessages (recipient, entry.endIdx - 1)
            (if canAppend then curPage ++ data else curPage)
        else st.outboundXcmpMessages
      if haveActive ∧ canAppend then
        .ok (entry.endIdx - entry.beginIdx - 1,
          { st with outboundXcmpMessages := pagesAfterMutate })
      else
        -- Need to add a new page.
        let pageIndex := entry.endIdx
        let s' := updateAt s index (fun e => { e with endIdx := e.endIdx + 1 })
        let newPage := format.encode ++ data
        let entry' := s'.getD index default
        .ok (entry'.endIdx - entry'.beginIdx - 1,
          { st with
            outboundXcmpMessages := mapInsert pagesAfterMutate (recipient, pageIndex) newPage
            outboundXcmpStatus := s' })

/-! ## The dispatch shuffle (`create_shuffle`, lines 255-270) -/

/-- Swap positions `i` and `j`, mirroring the three-line swap in the
source (`let a = v[i]; v[i] = v[j]; v[j] = a`). -/
def listSwap (l : List Nat) (i j : Nat) : List Nat :=
  let a := l.getD i 0
  let b := l.getD j 0
  (l.set i b).set j a

/-- TrailingZeroInput decode of `[u8; 32]`: the parent hash padded with
zeroes to 32 bytes (the ChaCha seed construction of `create_shuffle`). -/
def chaChaSeed (parentHash : Bytes) : Bytes :=
  (parentHash ++ List.replicate 32 0).take 32

/-- Source `create_shuffle(len)`: the ChaCha stream is abstracted as `rng`, whose
`i`-th value is the `i`-th `next_u32()` output of the generator for this
block's seed.  Start from the identity over `[0, len)`; at step `i` pick
`j = rng i % len` and swap positions `i` and `j`. -/
def create_shuffle (rng : Nat → Nat) (len : Nat) : List Nat :=
  (List.range len).foldl (fun shuffled i => listSwap shuffled i (rng i % len))
    (List.range len)

/-- Modelled from the spec's words for refinement comparison (§4.2
"Shuffle"): "start from the identity; for `i` from `0` to `N-1`, pick
`j = rng.next_u32() mod N` and swap positions `i` and `j`." -/
def shuffleSpecGo (rng : Nat → Nat) (len : Nat) : Nat → Nat → List Nat → List Nat
  | 0, _, acc => acc
  | k + 1, i, acc => shuffleSpecGo rng len k (i + 1) (listSwap acc i (rng i % len))

/-- The spec's reference shuffle: `N` swap steps starting from the
identity permutation of `[0, N)`. -/
def shuffleSpec (rng : Nat → Nat) (len : Nat) : List Nat :=
  shuffleSpecGo rng len len 0 (List.range len)

/-! ## External collaborators -/

/-- Source `XcmError`: only the `TooMuchWeightRequired` variant is distinguished
by the engine; every other error is collapsed into `Other`, plus the
`UnhandledXcmVersion` produced by the version check. -/
inductive XcmErr where
  | TooMuchWeightRequired
  | UnhandledXcmVersion
  | Other
deriving DecidableEq

/-- Source `Outcome` of `XcmExecutor::execute_xcm`. -/
inductive Outcome where
  | Complete (w : Weight)
  | Incomplete (w : Weight) (e : XcmErr)
  | Error (e : XcmErr)
deriving DecidableEq

/-- The collaborators consumed by the pallet.  A fragment decoder returns
the consumed prefix (the fragment's own SCALE encoding) and the remaining
bytes, mirroring how `Decode::decode` advances the input slice. -/
structure Env where
  /-- Source `VersionedXcm::decode` on a byte slice: consumed prefix and rest. -/
  decodeXcm : Bytes → Option (Bytes × Bytes)
  /-- Source `Vec<u8>::decode` on a byte slice: consumed prefix and rest. -/
  decodeBlob : Bytes → Option (Bytes × Bytes)
  /-- Source `Xcm::try_from(versioned)` succeeds on this fragment? -/
  tryFrom : Bytes → Bool
  /-- Source `T::XcmExecutor::execute_xcm(origin, message, weight_cap)`. -/
  exec : ParaId → Bytes → Weight → Outcome
  /-- The `i`-th `next_u32()` of the block-seeded ChaCha stream. -/
  rng : Nat → Nat
  /-- Source `T::ChannelInfo::get_channel_max`. -/
  channelMax : ParaId → Option Nat
  /-- Source `T::ChannelInfo::get_channel_status`. -/
  channelStatus : ParaId → ChannelStatus

/-- Source `handle_xcm_message` (lines 277-307): version-check the fragment, run
the executor, and map `Complete`/`Incomplete` to `ok weight` and `Error`
to an error result. -/
def handleXcmMessage (env : Env) (sender : ParaId) (xcm : Bytes) (maxWeight : Weight) :
    Except XcmErr Weight :=
  if env.tryFrom xcm then
    match env.exec sender xcm maxWeight with
    | .Error e => .error e
    | .Complete w => .ok w
    | .Incomplete w _ => .ok w
  else .error .UnhandledXcmVersion

/-! ## Inbound page processing (`process_xcmp_message`, lines 309-379) -/

/-- The `ConcatenatedVersionedXcm` loop of `process_xcmp_message`.  The
`fuel` argument only bounds recursion depth (the Rust loop terminates
because every successful decode consumes at least one byte); it returns
the final `(remaining_fragments, weight_used)` pair. -/
def processXcmLoop (env : Env) (sender : ParaId) (maxWeight : Weight) :
    Nat → Bytes → Weight → Bytes × Weight
  | 0, remaining, used => (remaining, used)
  | fuel + 1, remaining, used =>
    if remaining = [] then (remaining, used)
    else
      match env.decodeXcm remaining with
      | some (xcm, rest) =>
        let weight := maxWeight - used
        match handleXcmMessage env sender xcm weight with
        | .ok w => processXcmLoop env sender maxWeight fuel rest (used + w)
        | .error .TooMuchWeightRequired =>
          -- Too heavy: rewind to the slice saved before this decode and bail.
          (remaining, used)
        | .error _ => processXcmLoop env sender maxWeight fuel rest used
      | none => ([], used)

/-- The `ConcatenatedEncodedBlob` loop: `handle_blob_message` always
returns `Err(false)` ("Blob messages not handled"), so every decoded blob
is dropped without weight and without rewind. -/
def processBlobLoop (env : Env) : Nat → Bytes → Weight → Bytes × Weight
  | 0, remaining, used => (remaining, used)
  | fuel + 1, remaining, used =>
    if remaining = [] then (remaining, used)
    else
      match env.decodeBlob remaining with
      | some (_, rest) => processBlobLoop env fuel rest used
      | none => ([], used)

/-- Source `process_xcmp_message(sender, (sent_at, format), max_weight)`: load the
stored page, run the per-format loop, then delete the key when everything
was consumed or persist the leftover bytes otherwise. -/
def process_xcmp_message (env : Env) (sender : ParaId)
    (page : RelayBlockNumber × XcmpMessageFormat) (maxWeight : Weight)
    (st : XcmpState) : (Weight × Bool) × XcmpState :=
  let sentAt := page.1
  let data := mapGet st.inboundXcmpMessages (sender, sentAt)
  let (remaining, weightUsed) :=
    match page.2 with
    | .ConcatenatedVersionedXcm =>
      processXcmLoop env sender maxWeight (data.length + 1) data 0
    | .ConcatenatedEncodedBlob =>
      processBlobLoop env (data.length + 1) data 0
    | .Signals => ([], 0)
  let isEmpty := remaining = []
  let st' :=
    if isEmpty then
      { st with inboundXcmpMessages := mapRemove st.inboundXcmpMessages (sender, sentAt) }
    else
      { st with inboundXcmpMessages := mapInsert st.inboundXcmpMessages (sender, sentAt) remaining }
  ((weightUsed, decide isEmpty), st')

/-! ## The shuffled dispatcher (`service_xcmp_queue`, lines 381-472) -/

/-- Source `resume_threshold` local of `service_xcmp_queue`. -/
def resumeThreshold : Nat := 1

/-- Source `threshold_weight` local of `service_xcmp_queue`. -/
def thresholdWeight : Weight := 100000

/-- Source `weight_restrict_decay` local of `service_xcmp_queue`. -/
def weightRestrictDecay : Nat := 2

/-- The mutable loop variables of `service_xcmp_queue`'s main loop. -/
structure ServiceCtx where
  status : List InboundEntry
  shuffled : List Nat
  shuffleIndex : Nat
  weightUsed : Weight
  weightAvailable : Weight
  st : XcmpState

/-- The `weight_available` unlock computation at the head of the loop
body (lines 415-427). -/
def serviceStepAvailable (maxWeight : Weight) (c : ServiceCtx) : Weight :=
  if c.weightAvailable ≠ maxWeight then
    if c.shuffleIndex < c.status.length then
      let wa := c.weightAvailable + (maxWeight - c.weightAvailable) / weightRestrictDecay
      if maxWeight < wa + thresholdWeight then maxWeight else wa
    else maxWeight
  else c.weightAvailable

/-- The dispatch block of the loop body (lines 429-444): process the front
page of the selected channel and pop it when it was fully consumed;
returns the updated status list, the weight processed, and the state. -/
def serviceStepDispatch (env : Env) (maxWeight : Weight) (c : ServiceCtx) :
    List InboundEntry × Weight × XcmpState :=
  let index := c.shuffled.getD c.shuffleIndex 0
  let entry := c.status.getD index default
  if entry.pages = [] then (c.status, 0, c.st)
  else
    let pr := process_xcmp_message env entry.para
      (entry.pages.headD (0, .ConcatenatedVersionedXcm))
      (serviceStepAvailable maxWeight c - c.weightUsed) c.st
    (if pr.1.2 then updateAt c.status index (fun x => { x with pages := x.pages.tail })
     else c.status, pr.1.1, pr.2)

/-- The resume check of the loop body (lines 447-452): if the channel's
queue has drained to at most `resume_threshold` pages and its inbound
state is `Suspended`, send a `Resume` signal to the sender and flip the
state back to `Ok`. -/
def resumeCheck (sender : ParaId) (index : Nat) (status : List InboundEntry)
    (st : XcmpState) : List InboundEntry × XcmpState :=
  let entry := status.getD index default
  if entry.pages.length ≤ resumeThreshold ∧ entry.state = .Suspended then
    (updateAt status index (fun x => { x with state := .Ok }), sendSignalS sender .Resume st)
  else (status, st)

/-- One iteration of the main loop body of `service_xcmp_queue`
(lines 412-464), starting from the loop variables in `c`. -/
def serviceStep (env : Env) (maxWeight : Weight) (c : ServiceCtx) : ServiceCtx :=
  let index := c.shuffled.getD c.shuffleIndex 0
  let entry := c.status.getD index default
  let sender := entry.para
  let weightAvailable := serviceStepAvailable maxWeight c
  let d := serviceStepDispatch env maxWeight c
  let weightProcessed := d.2.1
  let weightUsed := c.weightUsed + weightProcessed
  let r := resumeCheck sender index d.1 d.2.2
  let entry₂ := r.1.getD index default
  if (entry₂.pages ≠ [] ∧ 0 < weightProcessed) ∨ weightAvailable ≠ maxWeight then
    if c.shuffleIndex + 1 = c.shuffled.length then
      -- "Only this queue left. Just run around this loop once more."
      ⟨r.1, c.shuffled, c.shuffleIndex, weightUsed, weightAvailable, r.2⟩
    else
      ⟨r.1, c.shuffled ++ [index], c.shuffleIndex + 1, weightUsed, weightAvailable, r.2⟩
  else
    ⟨r.1, c.shuffled, c.shuffleIndex + 1, weightUsed, weightAvailable, r.2⟩

/-- The main loop of `service_xcmp_queue` as written in the source
(line 411): iterate while `shuffle_index < shuffled.len()` and
`max_weight.saturating_sub(weight_used) < threshold_weight`. -/
def serviceLoop (env : Env) (maxWeight : Weight) : Nat → ServiceCtx → ServiceCtx
  | 0, c => c
  | fuel + 1, c =>
    if c.shuffleIndex < c.shuffled.length ∧ maxWeight - c.weightUsed < thresholdWeight then
      serviceLoop env maxWeight fuel (serviceStep env maxWeight c)
    else c

/-- Recursion-depth bound for the main loop, generous enough that every
run in this development finishes before exhausting it. -/
def serviceFuel (st : XcmpState) : Nat :=
  let pageBytes := (st.inboundXcmpMessages.map (fun kv => kv.2.length)).sum
  let pageCount := (st.inboundXcmpStatus.map (fun e => e.pages.length)).sum
  (st.inboundXcmpStatus.length + pageCount + pageBytes + 2) * 4

/-- Source `service_xcmp_queue(max_weight)` (lines 383-472): returns the weight
used and the updated state. -/
def service_xcmp_queue (env : Env) (maxWeight : Weight) (st : XcmpState) :
    Weight × XcmpState :=
  let status := st.inboundXcmpStatus
  if status.length = 0 then (0, st)
  else
    let shuffled := create_shuffle env.rng status.length
    let c := serviceLoop env maxWeight (serviceFuel st)
      ⟨status, shuffled, 0, 0, 0, st⟩
    -- Only retain the senders that have non-empty queues.
    let status' := c.status.filter (fun e => !e.pages.isEmpty)
    (c.weightUsed, { c.st with inboundXcmpStatus := status' })

/-! ## Inbound ingest (`handle_xcmp_messages`, lines 503-566) -/

/-- Source `suspend_threshold` local of `handle_xcmp_messages`. -/
def suspendThreshold : Nat := 2

/-- Source `hard_limit` local of `handle_xcmp_messages`. -/
def hardLimit : Nat := 5

/-- The `Signals` path of ingest: decode one-byte control codes until the
bytes run out or a byte is not a valid `ChannelSignal`. -/
def processSignals (sender : ParaId) : Bytes → XcmpState → XcmpState
  | [], st => st
  | 0 :: rest, st => processSignals sender rest (suspendChannel sender st)
  | 1 :: rest, st => processSignals sender rest (resumeChannel sender st)
  | _ :: _, st => st

/-- The data path of ingest on the in-memory `status` list (lines
537-554): at the record for `sender` (the list is kept sorted with unique
paras, so first match equals `binary_search`), possibly suspend the
channel and send a `Suspend` signal, then append the page tuple unless the
queue already holds `hard_limit` pages; an absent record is pushed. -/
def inboundDataPath (sender : ParaId) (sentAt : RelayBlockNumber)
    (format : XcmpMessageFormat) :
    List InboundEntry → XcmpState → List InboundEntry × XcmpState
  | [], st => ([⟨sender, .Ok, [(sentAt, format)]⟩], st)
  | e :: rest, st =>
    if e.para = sender then
      let count := e.pages.length
      let (e₁, st₁) :=
        if suspendThreshold ≤ count ∧ e.state = .Ok then
          ({ e with state := .Suspended }, sendSignalS sender .Suspend st)
        else (e, st)
      let e₂ :=
        if count < hardLimit then { e₁ with pages := e₁.pages ++ [(sentAt, format)] }
        else e₁
      (e₂ :: rest, st₁)
    else
      let (rest', st') := inboundDataPath sender sentAt format rest st
      (e :: rest', st')

/-- Processing of one `(sender, sent_at, data)` triple inside the ingest
loop (lines 515-560).  Note that for a non-`Signals` format the post-tag
payload is stored under `(sender, sent_at)` unconditionally, after the
status-list update. -/
def handleOneXcmpMessage (sender : ParaId) (sentAt : RelayBlockNumber) (data : Bytes)
    (status : List InboundEntry) (st : XcmpState) : List InboundEntry × XcmpState :=
  match decodeFormat data with
  | none => (status, st)
  | some format =>
    let dataRef := data.tail
    if format = .Signals then
      (status, processSignals sender dataRef st)
    else
      let (status', st') := inboundDataPath sender sentAt format status st
      (status',
        { st' with
          inboundXcmpMessages := mapInsert st'.inboundXcmpMessages (sender, sentAt) dataRef })

/-- Source `handle_xcmp_messages(iter, max_weight)`: fold the ingest loop over
the batches, sort and persist the status list, then invoke the
dispatcher with the full weight budget. -/
def handle_xcmp_messages (env : Env) (msgs : List (ParaId × RelayBlockNumber × Bytes))
    (maxWeight : Weight) (st : XcmpState) : Weight × XcmpState :=
  let start : List InboundEntry × XcmpState := (st.inboundXcmpStatus, st)
  let (status, st₁) := msgs.foldl
    (fun acc m => handleOneXcmpMessage m.1 m.2.1 m.2.2 acc.1 acc.2) start
  let status := sortByKeyNat (fun e => e.para) status
  service_xcmp_queue env maxWeight { st₁ with inboundXcmpStatus := status }

/-! ## Outbound collection (`take_outbound_messages`, lines 569-665) -/

/-- The closed-channel purge of `take_outbound_messages` (lines 587-595):
delete every data page with index in `[begin, end)` and the signal page
when one is pending. -/
def removeRangeGo (m : List ((ParaId × Nat) × Bytes)) (p : ParaId) :
    Nat → Nat → List ((ParaId × Nat) × Bytes)
  | _, 0 => m
  | b, n + 1 => removeRangeGo (mapRemove m (p, b)) p (b + 1) n

/-- Remove keys `(p, i)` for `i ∈ [b, e)`. -/
def removeRange (m : List ((ParaId × Nat) × Bytes)) (p : ParaId) (b e : Nat) :
    List ((ParaId × Nat) × Bytes) :=
  removeRangeGo m p b (e - b)

/-- State effect of the `ChannelStatus::Closed` arm on entry `e`. -/
def closedPurge (st : XcmpState) (e : OutboundEntry) : XcmpState :=
  { st with
    outboundXcmpMessages := removeRange st.outboundXcmpMessages e.para e.beginIdx e.endIdx
    signalMessages :=
      if e.signalling then mapRemove st.signalMessages e.para else st.signalMessages }

/-- The retain predicate applied after the walk (line 653): keep records
that are suspended, have a pending signal, or have data pages. -/
def retainOutbound (x : OutboundEntry) : Bool :=
  decide (x.state = .Suspended) || x.signalling || decide (x.beginIdx < x.endIdx)

/-- The per-record walk of `take_outbound_messages` (lines 575-639):
process each status record in stored order, stopping the mutation once
`result` reaches `maxMessageCount`; returns the rewritten status list, the
updated page/signal stores, and the collected `(para, page)` pairs. -/
def takeOutboundWalk (env : Env) (maxMessageCount : Nat) :
    List OutboundEntry → XcmpState → List (ParaId × Bytes) →
    List OutboundEntry × XcmpState × List (ParaId × Bytes)
  | [], st, result => ([], st, result)
  | e :: rest, st, result =>
    if result.length = maxMessageCount then (e :: rest, st, result)
    else if e.state = .Suspended then
      let r := takeOutboundWalk env maxMessageCount rest st result
      (e :: r.1, r.2.1, r.2.2)
    else
      match env.channelStatus e.para with
      | .Closed =>
        let r := takeOutboundWalk env maxMessageCount rest (closedPurge st e) result
        ((⟨e.para, .Ok, false, 0, 0⟩ : OutboundEntry) :: r.1, r.2.1, r.2.2)
      | .Full =>
        let r := takeOutboundWalk env maxMessageCount rest st result
        (e :: r.1, r.2.1, r.2.2)
      | .Ready maxSizeNow maxSizeEver =>
        let taken : Option (Bytes × Bool × Nat × XcmpState) :=
          if e.signalling then
            let page := mapGet st.signalMessages e.para
            if page.length < maxSizeNow then
              some (page, false, e.beginIdx,
                { st with signalMessages := mapRemove st.signalMessages e.para })
            else none
          else if e.beginIdx < e.endIdx then
            let page := mapGet st.outboundXcmpMessages (e.para, e.beginIdx)
            if page.length < maxSizeNow then
              some (page, e.signalling, e.beginIdx + 1,
                { st with
                  outboundXcmpMessages :=
                    mapRemove st.outboundXcmpMessages (e.para, e.beginIdx) })
            else none
          else none
        match taken with
        | none =>
          let r := takeOutboundWalk env maxMessageCount rest st result
          (e :: r.1, r.2.1, r.2.2)
        | some (page, signalling, beginIdx, st₁) =>
          let (beginIdx, endIdx) :=
            if beginIdx = e.endIdx then (0, 0) else (beginIdx, e.endIdx)
          let result' :=
            if maxSizeEver < page.length then result else result ++ [(e.para, page)]
          let e' : OutboundEntry := ⟨e.para, e.state, signalling, beginIdx, endIdx⟩
          let r := takeOutboundWalk env maxMessageCount rest st₁ result'
          (e' :: r.1, r.2.1, r.2.2)

/-- Source `take_outbound_messages(maximum_channels)`: run the walk, sort the
result by recipient, prune empty records and rotate the survivors left by
`result.len() - pruned`.  The subtraction and the rotation are `usize`
operations that panic when `result.len() < pruned` (or when the rotation
amount exceeds the surviving length); a panic is modelled as `none`. -/
def take_outbound_messages (env : Env) (maximumChannels : Nat) (st : XcmpState) :
    Option (List (ParaId × Bytes) × XcmpState) :=
  let statuses := st.outboundXcmpStatus
  let oldStatusesLen := statuses.length
  let maxMessageCount := min statuses.length maximumChannels
  let (statuses₁, st₁, result) := takeOutboundWalk env maxMessageCount statuses st []
  let result := sortByKeyNat (fun m => m.1) result
  let statuses₂ := statuses₁.filter retainOutbound
  let pruned := oldStatusesLen - statuses₂.length
  if result.length < pruned then none
  else if statuses₂.length < result.length - pruned then none
  else
    some (result,
      { st₁ with outboundXcmpStatus := rotateLeftExact statuses₂ (result.length - pruned) })

/-- Does the first outbound record for `p` carry the signalling flag? -/
def hasSignalFlag (st : XcmpState) (p : ParaId) : Bool :=
  match st.outboundXcmpStatus.find? (fun e => decide (e.para = p)) with
  | some e => e.signalling
  | none => false

/-! ## Concrete collaborators and states used in the claim evaluations -/

/-- Fragment decoder for concrete runs: every byte is one fragment (the
consumed prefix is the singleton, the rest follows). -/
def decodeSingleByte : Bytes → Option (Bytes × Bytes)
  | [] => none
  | b :: rest => some ([b], rest)

/-- Collaborators for concrete runs: single-byte fragments, every
execution completes with weight 10000, channels are `Ready 100 100`. -/
def envRun : Env where
  decodeXcm := decodeSingleByte
  decodeBlob := decodeSingleByte
  tryFrom := fun _ => true
  exec := fun _ _ _ => .Complete 10000
  rng := fun _ => 0
  channelMax := fun _ => some 1000
  channelStatus := fun _ => .Ready 100 100

/-- One peer (para 5) with one queued inbound page at relay block 10
holding a single one-byte fragment. -/
def stOnePage : XcmpState :=
  ⟨[⟨5, .Ok, [(10, .ConcatenatedVersionedXcm)]⟩], [((5, 10), [0])], [], [], []⟩

/-- Five queued pages for para 4 — exactly `hard_limit`. -/
def pagesFive : List (RelayBlockNumber × XcmpMessageFormat) :=
  [(1, .ConcatenatedVersionedXcm), (2, .ConcatenatedVersionedXcm),
   (3, .ConcatenatedVersionedXcm), (4, .ConcatenatedVersionedXcm),
   (5, .ConcatenatedVersionedXcm)]

/-- A peer whose inbound queue already holds `hard_limit = 5` batches. -/
def stFullQueue : XcmpState :=
  ⟨[⟨4, .Ok, pagesFive⟩],
   [((4, 1), [0, 1]), ((4, 2), [0, 2]), ((4, 3), [0, 3]), ((4, 4), [0, 4]),
    ((4, 5), [0, 5])], [], [], []⟩

/-- Every channel reports `Closed`. -/
def envAllClosed : Env := { envRun with channelStatus := fun _ => .Closed }

/-- One outbound channel (para 9) with three data pages and a pending
signal page — the shape of spec scenario S5. -/
def stClosedChannel : XcmpState :=
  ⟨[], [], [⟨9, .Ok, true, 1, 4⟩],
   [((9, 1), [0, 1]), ((9, 2), [0, 2]), ((9, 3), [0, 3])], [(9, [2, 0])]⟩

/-- Channel 9 is `Closed`, every other channel is `Ready 100 100`. -/
def envNineClosed : Env :=
  { envRun with channelStatus := fun p => if p = 9 then .Closed else .Ready 100 100 }

/-- Two outbound channels: para 1 open with two data pages, para 9 closed
with three data pages and a pending signal. -/
def stOneOpenOneClosed : XcmpState :=
  ⟨[], [], [⟨1, .Ok, false, 1, 3⟩, ⟨9, .Ok, true, 2, 5⟩],
   [((1, 1), [0, 5]), ((1, 2), [0, 6]), ((9, 2), [0, 2]), ((9, 3), [0, 3]),
    ((9, 4), [0, 4])], [(9, [2, 0, 1])]⟩

/-- Decoder/executor pair for the C7 witness: one-byte fragments; the
executor refuses fragment `[7]` with `TooMuchWeightRequired` and
completes everything else with weight 5. -/
def envRewind : Env :=
  { envRun with
    exec := fun _ f _ => if f = [7] then .Error .TooMuchWeightRequired else .Complete 5 }

/-- Inbound store holding the page `[6, 7, 8]` for `(peer 3, sent_at 11)`. -/
def stRewind : XcmpState := ⟨[], [((3, 11), [6, 7, 8])], [], [], []⟩

/-- Inbound state for the C9 witness: para 6 suspended with two queued
pages; the dispatch step consumes the front page entirely, draining the
queue from 2 pages to 1 and so triggering the resume check. -/
def stBackpressure : XcmpState :=
  ⟨[⟨6, .Suspended, [(3, .ConcatenatedVersionedXcm), (5, .ConcatenatedVersionedXcm)]⟩],
   [((6, 3), [4]), ((6, 5), [9])], [], [], []⟩

/-! ## Helper lemmas about the storage-map model -/

theorem mapLookup_mapRemove_self {κ : Type} [DecidableEq κ]
    (m : List (κ × Bytes)) (k : κ) : mapLookup (mapRemove m k) k = none := by
  induction m with
  | nil => rfl
  | cons kv rest ih =>
    by_cases h : kv.1 = k <;> simp [mapRemove, mapLookup, h, ih]

theorem mapLookup_mapRemove_ne {κ : Type} [DecidableEq κ]
    (m : List (κ × Bytes)) (k k' : κ) (h : k' ≠ k) :
    mapLookup (mapRemove m k) k' = mapLookup m k' := by
  induction m with
  | nil => rfl
  | cons kv rest ih =>
    by_cases h1 : kv.1 = k
    · have h2 : ¬kv.1 = k' := fun hc => h (hc ▸ h1)
      simp only [mapRemove, if_pos h1, mapLookup, if_neg h2]
      exact ih
    · by_cases h2 : kv.1 = k'
      · simp only [mapRemove, if_neg h1, mapLookup, if_pos h2]
      · simp only [mapRemove, if_neg h1, mapLookup, if_neg h2]
        exact ih

theorem mapLookup_mapInsert_self {κ : Type} [DecidableEq κ]
    (m : List (κ × Bytes)) (k : κ) (v : Bytes) :
    mapLookup (mapInsert m k v) k = some v := by
  simp [mapInsert, mapLookup]

theorem mapGet_mapInsert_self {κ : Type} [DecidableEq κ]
    (m : List (κ × Bytes)) (k : κ) (v : Bytes) :
    mapGet (mapInsert m k v) k = v := by
  simp [mapGet, mapLookup_mapInsert_self]

theorem removeRangeGo_preserves_none (p : ParaId) (i : Nat) :
    ∀ (n b : Nat) (m : List ((ParaId × Nat) × Bytes)), i < b →
      mapLookup m (p, i) = none → mapLookup (removeRangeGo m p b n) (p, i) = none := by
  intro n
  induction n with
  | zero => intro b m _ h0; exact h0
  | succ n ih =>
    intro b m hib h0
    simp only [removeRangeGo]
    refine ih (b + 1) _ (by omega) ?_
    rw [mapLookup_mapRemove_ne _ _ _ (by simp; omega)]
    exact h0

theorem removeRangeGo_lookup_none (p : ParaId) :
    ∀ (n b i : Nat) (m : List ((ParaId × Nat) × Bytes)),
      b ≤ i → i < b + n → mapLookup (removeRangeGo m p b n) (p, i) = none := by
  intro n
  induction n with
  | zero => intro b i m hb hi; omega
  | succ n ih =>
    intro b i m hb hi
    by_cases h : i = b
    · subst h
      simp only [removeRangeGo]
      exact removeRangeGo_preserves_none p i n (i + 1) _ (by omega)
        (mapLookup_mapRemove_self _ _)
    · simp only [removeRangeGo]
      exact ih (b + 1) i _ (by omega) (by omega)

theorem removeRange_lookup_none (m : List ((ParaId × Nat) × Bytes)) (p : ParaId)
    (b e i : Nat) (hb : b ≤ i) (hi : i < e) :
    mapLookup (removeRange m p b e) (p, i) = none := by
  have : b + (e - b) = e := by omega
  exact removeRangeGo_lookup_none p (e - b) b i m hb (by omega)

/-! ## Helper lemmas about list updates -/

theorem getD_eq_of_get? {α : Type} (l : List α) (i : Nat) (e : α) (d : α)
    (h : l.get? i = some e) : l.getD i d = e := by
  rw [List.get?_eq_getElem?] at h
  simp [List.getD, h]

theorem get?_updateAt_self {α : Type} (l : List α) (i : Nat) (f : α → α) :
    (updateAt l i f).get? i = (l.get? i).map f := by
  induction l generalizing i with
  | nil => simp [updateAt]
  | cons x xs ih =>
    cases i with
    | zero => simp [updateAt]
    | succ n => simpa [updateAt] using ih n

theorem getD_concat_length {α : Type} (l : List α) (e : α) (d : α) :
    (l ++ [e]).getD l.length d = e := by
  induction l with
  | nil => rfl
  | cons x xs ih => simp [ih]

theorem updateAt_concat_length {α : Type} (l : List α) (e : α) (f : α → α) :
    updateAt (l ++ [e]) l.length f = l ++ [f e] := by
  induction l with
  | nil => rfl
  | cons x xs ih => simpa [updateAt] using ih

/-! ## Helper lemmas about `send_signal` -/

theorem setSignallingList_find (s : List OutboundEntry) (dest : ParaId) :
    ∃ e, (setSignallingList s dest).find? (fun x => decide (x.para = dest)) = some e ∧
      e.signalling = true := by
  induction s with
  | nil => exact ⟨⟨dest, .Ok, true, 0, 0⟩, by simp [setSignallingList], rfl⟩
  | cons x rest ih =>
    by_cases h : x.para = dest
    · exact ⟨{ x with signalling := true }, by simp [setSignallingList, h, List.find?], rfl⟩
    · obtain ⟨e, he, hsig⟩ := ih
      exact ⟨e, by simp [setSignallingList, h, List.find?, he], hsig⟩

theorem setSignallingList_absent (s : List OutboundEntry) (dest : ParaId)
    (h : ∀ x ∈ s, x.para ≠ dest) :
    setSignallingList s dest = s ++ [⟨dest, .Ok, true, 0, 0⟩] := by
  induction s with
  | nil => rfl
  | cons x rest ih =>
    have hx : ¬x.para = dest := h x (by simp)
    simp only [setSignallingList, hx, if_false, List.cons_append, List.cons.injEq, true_and]
    exact ih fun y hy => h y (by simp [hy])

theorem hasSignalFlag_sendSignalS (dest : ParaId) (signal : ChannelSignal) (st : XcmpState) :
    hasSignalFlag (sendSignalS dest signal st) dest = true := by
  obtain ⟨e, he, hsig⟩ := setSignallingList_find st.outboundXcmpStatus dest
  simp [hasSignalFlag, sendSignalS, he, hsig]

theorem sendSignalS_page (dest : ParaId) (signal : ChannelSignal) (st : XcmpState) :
    mapGet (sendSignalS dest signal st).signalMessages dest =
      (if mapGet st.signalMessages dest = [] then
        XcmpMessageFormat.Signals.encode ++ signal.encode
      else mapGet st.signalMessages dest ++ signal.encode) := by
  simp only [sendSignalS]
  by_cases h : mapGet st.signalMessages dest = [] <;> simp [h, mapGet_mapInsert_self]

theorem sendSignalS_page_suffix (dest : ParaId) (signal : ChannelSignal) (st : XcmpState) :
    ∃ p, mapGet (sendSignalS dest signal st).signalMessages dest = p ++ signal.encode := by
  rw [sendSignalS_page]
  by_cases h : mapGet st.signalMessages dest = []
  · exact ⟨XcmpMessageFormat.Signals.encode, by simp [h]⟩
  · exact ⟨mapGet st.signalMessages dest, by simp [h]⟩

theorem sendSignalS_outbound (dest : ParaId) (signal : ChannelSignal) (st : XcmpState) :
    (sendSignalS dest signal st).outboundXcmpStatus =
      setSignallingList st.outboundXcmpStatus dest := rfl

/-- Source `process_xcmp_message` only touches `InboundXcmpMessages`. -/
theorem process_xcmp_message_frame (env : Env) (sender : ParaId)
    (page : RelayBlockNumber × XcmpMessageFormat) (maxWeight : Weight) (st : XcmpState) :
    ((process_xcmp_message env sender page maxWeight st).2.signalMessages =
        st.signalMessages) ∧
    ((process_xcmp_message env sender page maxWeight st).2.outboundXcmpStatus =
        st.outboundXcmpStatus) ∧
    ((process_xcmp_message env sender page maxWeight st).2.inboundXcmpStatus =
        st.inboundXcmpStatus) := by
  simp only [process_xcmp_message]
  by_cases h : (match page.2 with
    | .ConcatenatedVersionedXcm =>
      processXcmLoop env sender maxWeight
        ((mapGet st.inboundXcmpMessages (sender, page.1)).length + 1)
        (mapGet st.inboundXcmpMessages (sender, page.1)) 0
    | .ConcatenatedEncodedBlob =>
      processBlobLoop env ((mapGet st.inboundXcmpMessages (sender, page.1)).length + 1)
        (mapGet st.inboundXcmpMessages (sender, page.1)) 0
    | .Signals => ([], 0)).1 = [] <;> simp [h]

/-- C1: the claim is the spec's reading and the source comment's intent
("the amount of remaining weight **under which we stop** processing
messages"), but the loop guard on line 411 is
`max_weight.saturating_sub(weight_used) < threshold_weight` — inverted.
Evaluating the embedded dispatcher at the failing input: with a budget of
50000 (below `THRESHOLD_WEIGHT = 100000`) the dispatcher executes the
queued fragment and returns weight 10000 instead of returning 0
immediately, and with an ample budget of 1000000 it dispatches nothing and
returns 0 leaving the queue untouched. -/
theorem C1_threshold_guard_inverted :
    service_xcmp_queue envRun 50000 stOnePage = (10000, ⟨[], [], [], [], []⟩) ∧
    service_xcmp_queue envRun 1000000 stOnePage = (0, stOnePage) :=
  ⟨rfl, rfl⟩

/-- C2: the claim matches the spec and the source's own
`debug_assert!(false, "XCMP channel queue full. Silently dropping message")`,
but the `InboundXcmpMessages::insert` on line 556 sits outside the
`binary_search` match and runs unconditionally.  Ingesting a sixth batch
`(sender 4, sent_at 6)` into a queue at `hard_limit` leaves the pages list
unextended (no entry with `sent_at = 6`), yet stores the payload under
`(4, 6)` — an orphan inbound page, violating the claimed invariant. -/
theorem C2_dropped_batch_leaves_orphan_page :
    ((handle_xcmp_messages envRun [(4, 6, [0, 99])] 1000000 stFullQueue).2.inboundXcmpStatus =
      [⟨4, .Suspended, pagesFive⟩]) ∧
    (pagesFive.all fun pg => decide (pg.1 ≠ 6)) = true ∧
    (mapLookup (handle_xcmp_messages envRun [(4, 6, [0, 99])] 1000000
        stFullQueue).2.inboundXcmpMessages (4, 6) = some [99]) :=
  ⟨rfl, rfl, rfl⟩

/-- C3: the claim repeats the source's comment ("removing an item from
status implies a message being sent, so the result messages must be no
less than the pruned channels"), but a channel reported `Closed` is purged
without emitting anything and its reset record `(Ok, false, 0, 0)` is then
pruned, so `result.len() = 0 < 1 = pruned` and
`statuses.rotate_left(result.len() - pruned)` panics on the `usize`
underflow.  The embedding models the panic as `none`; evaluating it at the
failing input shows the call panics. -/
theorem C3_closed_purge_underflows_rotation :
    take_outbound_messages envAllClosed 10 stClosedChannel = none := rfl

/-- C4 counterexample: para 3 has an empty data queue (`begin = end = 0`)
but `has_signal = true`.  The claim says a `Resume` must retain the record
with state `Ok`; `resume_channel` (line 491) tests only
`begin_idx == end_idx` and removes it. -/
theorem C4_counterexample :
    (resumeChannel 3 ⟨[], [], [⟨3, .Suspended, true, 0, 0⟩], [], []⟩).outboundXcmpStatus =
      [] := rfl

/-- Behaviour of `resume_channel`'s list update at the first record for
`target`. -/
theorem resumeChannelList_found :
    ∀ (pre post : List OutboundEntry) (e : OutboundEntry) (target : ParaId),
      (∀ x ∈ pre, x.para ≠ target) → e.para = target →
      resumeChannelList (pre ++ e :: post) target =
        if e.beginIdx = e.endIdx then pre ++ post
        else pre ++ { e with state := OutboundStatus.Ok } :: post := by
  intro pre
  induction pre with
  | nil =>
    intro post e target _ hpara
    simp [resumeChannelList, hpara]
  | cons x xs ih =>
    intro post e target hpre hpara
    have hx : ¬x.para = target := hpre x (by simp)
    rw [List.cons_append]
    rw [show resumeChannelList (x :: (xs ++ e :: post)) target =
        x :: resumeChannelList (xs ++ e :: post) target from by
      simp [resumeChannelList, hx]]
    rw [ih post e target (fun y hy => hpre y (by simp [hy])) hpara]
    by_cases h : e.beginIdx = e.endIdx <;> simp [h]

/-- C4 (amended): on a `Resume` signal, the first outbound record for the
peer is removed exactly when `begin_idx == end_idx`, regardless of
`has_signal`; when the data queue is non-empty the record is retained with
`outbound_state` set back to `Ok`. -/
theorem C4_resume_removal_ignores_signal_flag
    (pre post : List OutboundEntry) (e : OutboundEntry) (target : ParaId) (st : XcmpState)
    (hpre : ∀ x ∈ pre, x.para ≠ target) (hpara : e.para = target) :
    (resumeChannel target
        { st with outboundXcmpStatus := pre ++ e :: post }).outboundXcmpStatus =
      if e.beginIdx = e.endIdx then pre ++ post
      else pre ++ { e with state := OutboundStatus.Ok } :: post := by
  simp only [resumeChannel]
  exact resumeChannelList_found pre post e target hpre hpara

/-- C4 witness: concrete application of the amended theorem — para 3,
queue empty with a pending signal, sits behind an unrelated record;
`Resume` removes it. -/
theorem C4_witness :
    (resumeChannel 3
        { (⟨[], [], [], [], []⟩ : XcmpState) with
          outboundXcmpStatus :=
            [⟨1, .Ok, false, 0, 2⟩] ++ (⟨3, .Suspended, true, 0, 0⟩ : OutboundEntry) ::
              [] }).outboundXcmpStatus =
      if (0 : Nat) = 0 then [⟨1, .Ok, false, 0, 2⟩] ++ ([] : List OutboundEntry)
      else [⟨1, .Ok, false, 0, 2⟩] ++
        { (⟨3, .Suspended, true, 0, 0⟩ : OutboundEntry) with state := OutboundStatus.Ok } ::
          [] :=
  C4_resume_removal_ignores_signal_flag [⟨1, .Ok, false, 0, 2⟩] []
    ⟨3, .Suspended, true, 0, 0⟩ 3 ⟨[], [], [], [], []⟩ (by decide) rfl

/-- C5 counterexample: sending the first fragment to a fresh channel
(para 7, fragment `[5]`) opens the page at index 0 — the record becomes
`(7, Ok, false, 0, 1)` and `OutboundXcmpMessages[7, 0]` exists — against
the claim's `begin_idx = 1` and absence of key `(peer, 0)`. -/
theorem C5_counterexample :
    sendFragment (fun _ => some 100) 7 .ConcatenatedVersionedXcm [5] ⟨[], [], [], [], []⟩ =
      .ok (0, ⟨[], [], [⟨7, .Ok, false, 0, 1⟩], [((7, 0), [0, 5])], []⟩) := rfl

/-- C5 (amended): for a peer with no outbound record, `send_fragment`
creates the record `(peer, Ok, false, 0, 1)` — the live window starts at
`begin_idx = 0` — and the first data page is stored at index 0 with the
format tag prefixed; the returned queue depth is 0. -/
theorem C5_fresh_channel_first_page_at_index_zero
    (channelMax : ParaId → Option Nat) (recipient : ParaId)
    (format : XcmpMessageFormat) (data : Bytes) (st : XcmpState) (m : Nat)
    (hmax : channelMax recipient = some m) (hfit : data.length ≤ m)
    (habs : st.outboundXcmpStatus.findIdx? (fun item => decide (item.para = recipient)) =
      none) :
    sendFragment channelMax recipient format data st =
      .ok (0,
        { st with
          outboundXcmpMessages :=
            mapInsert st.outboundXcmpMessages (recipient, 0) (format.encode ++ data)
          outboundXcmpStatus :=
            st.outboundXcmpStatus ++ [⟨recipient, .Ok, false, 0, 1⟩] }) := by
  have hnotlt : ¬m < data.length := by omega
  simp only [sendFragment, hmax, if_neg hnotlt, habs]
  have hentry : (st.outboundXcmpStatus ++
      [(⟨recipient, .Ok, false, 0, 0⟩ : OutboundEntry)]).getD
        st.outboundXcmpStatus.length default = ⟨recipient, .Ok, false, 0, 0⟩ :=
    getD_concat_length _ _ _
  rw [hentry]
  have hupd : updateAt (st.outboundXcmpStatus ++
      [(⟨recipient, .Ok, false, 0, 0⟩ : OutboundEntry)]) st.outboundXcmpStatus.length
        (fun e => { e with endIdx := e.endIdx + 1 }) =
      st.outboundXcmpStatus ++ [⟨recipient, .Ok, false, 0, 1⟩] :=
    updateAt_concat_length _ _ _
  simp only [hupd]
  have hentry' : (st.outboundXcmpStatus ++
      [(⟨recipient, .Ok, false, 0, 1⟩ : OutboundEntry)]).getD
        st.outboundXcmpStatus.length default = ⟨recipient, .Ok, false, 0, 1⟩ :=
    getD_concat_length _ _ _
  simp [hentry']

/-- C5 witness: concrete application of the amended theorem — fresh peer
8, fragment `[1, 2]`, max size 50. -/
theorem C5_witness :
    sendFragment (fun _ => some 50) 8 .ConcatenatedEncodedBlob [1, 2] ⟨[], [], [], [], []⟩ =
      .ok (0,
        { (⟨[], [], [], [], []⟩ : XcmpState) with
          outboundXcmpMessages :=
            mapInsert ([] : List ((ParaId × Nat) × Bytes)) (8, 0)
              (XcmpMessageFormat.ConcatenatedEncodedBlob.encode ++ [1, 2])
          outboundXcmpStatus := [] ++ [⟨8, .Ok, false, 0, 1⟩] }) :=
  C5_fresh_channel_first_page_at_index_zero (fun _ => some 50) 8 .ConcatenatedEncodedBlob
    [1, 2] ⟨[], [], [], [], []⟩ 50 rfl (by decide) rfl

/-- C6 counterexample: after a `take_outbound_messages` call that visits
the closed channel 9 (and emits a page for the open channel 1 so that the
rotation does not panic), the post-call `OutboundXcmpStatus` holds **no**
record for para 9 at all: the record reset to `(Ok, false, 0, 0)` inside
the walk is pruned by the retain step, contradicting the claim that the
call "resets the peer's record to `{Ok, has_signal=false, begin=0,
end=0}`". -/
theorem C6_counterexample :
    take_outbound_messages envNineClosed 10 stOneOpenOneClosed =
      some ([(1, [0, 5])],
        ⟨[], [], [⟨1, .Ok, false, 2, 3⟩], [((1, 2), [0, 6])], []⟩) ∧
    ((⟨[], [], [⟨1, .Ok, false, 2, 3⟩], [((1, 2), [0, 6])], []⟩ :
        XcmpState).outboundXcmpStatus.all fun e => decide (e.para ≠ 9)) = true :=
  ⟨rfl, rfl⟩

/-- C6 (amended): during the per-record walk of `take_outbound_messages`,
a record whose channel reports `Closed` (and is not `Suspended`, with the
result not yet full) emits nothing: the walk output for it is the reset
record `(peer, Ok, false, 0, 0)`, the recursion continues on the purged
state with the same result list, every data page with index in
`[begin_idx, end_idx)` is deleted, and the signal page is deleted when
`has_signal` was set.  The reset record then fails the end-of-call retain
predicate, so the record is pruned from `OutboundXcmpStatus` rather than
kept (see C3 for the panic this pruning can trigger). -/
theorem C6_closed_channel_purged_without_emission
    (env : Env) (maxCnt : Nat) (e : OutboundEntry) (rest : List OutboundEntry)
    (st : XcmpState) (result : List (ParaId × Bytes))
    (hres : result.length ≠ maxCnt) (hstate : e.state ≠ .Suspended)
    (hclosed : env.channelStatus e.para = .Closed) :
    (takeOutboundWalk env maxCnt (e :: rest) st result =
      (let r := takeOutboundWalk env maxCnt rest (closedPurge st e) result
       ((⟨e.para, .Ok, false, 0, 0⟩ : OutboundEntry) :: r.1, r.2.1, r.2.2))) ∧
    (∀ i, e.beginIdx ≤ i → i < e.endIdx →
      mapLookup (closedPurge st e).outboundXcmpMessages (e.para, i) = none) ∧
    (e.signalling = true → mapLookup (closedPurge st e).signalMessages e.para = none) ∧
    retainOutbound ⟨e.para, .Ok, false, 0, 0⟩ = false := by
  refine ⟨?_, ?_, ?_, rfl⟩
  · simp [takeOutboundWalk, hres, hstate, hclosed]
  · intro i hb hi
    exact removeRange_lookup_none _ _ _ _ _ hb hi
  · intro hsig
    simp [closedPurge, hsig, mapLookup_mapRemove_self]

/-- C6 witness: concrete application of the amended theorem — closed
channel 9 with pages `[2, 5)` and a pending signal, one open record
behind it. -/
theorem C6_witness :
    (takeOutboundWalk envNineClosed 2
        ((⟨9, .Ok, true, 2, 5⟩ : OutboundEntry) :: [⟨1, .Ok, false, 1, 3⟩])
        stOneOpenOneClosed [] =
      (let r := takeOutboundWalk envNineClosed 2 [⟨1, .Ok, false, 1, 3⟩]
        (closedPurge stOneOpenOneClosed ⟨9, .Ok, true, 2, 5⟩) []
       ((⟨9, .Ok, false, 0, 0⟩ : OutboundEntry) :: r.1, r.2.1, r.2.2))) ∧
    (∀ i, (2 : Nat) ≤ i → i < 5 →
      mapLookup (closedPurge stOneOpenOneClosed
        ⟨9, .Ok, true, 2, 5⟩).outboundXcmpMessages (9, i) = none) ∧
    (true = true →
      mapLookup (closedPurge stOneOpenOneClosed
        ⟨9, .Ok, true, 2, 5⟩).signalMessages 9 = none) ∧
    retainOutbound ⟨9, .Ok, false, 0, 0⟩ = false :=
  C6_closed_channel_purged_without_emission envNineClosed 2 ⟨9, .Ok, true, 2, 5⟩
    [⟨1, .Ok, false, 1, 3⟩] stOneOpenOneClosed [] (by decide) (by decide) (by decide)

/-- C7: on a `ConcatenatedVersionedXcm` page, (i) when the executor
reports the weight-limit-reached error on the fragment at the read
cursor, the loop returns with the cursor rewound to the start of that
fragment — and since a decoder consumes the fragment's own encoding as a
prefix, the leftover bytes are exactly that fragment's encoding followed
by all not-yet-attempted fragments; (ii) whenever the loop finishes with
non-empty leftover bytes, `process_xcmp_message` persists them verbatim
under `(peer, sent_at)` and returns `page_empty = false`; (iii) when all
bytes are consumed the key is deleted and `page_empty = true` is
returned. -/
theorem C7_weight_limit_rewinds_and_persists
    (env : Env) (sender : ParaId) (sentAt : RelayBlockNumber) (maxWeight : Weight)
    (st : XcmpState)
    (hpre : ∀ bs f r, env.decodeXcm bs = some (f, r) → bs = f ++ r) :
    (∀ (fuel : Nat) (bs : Bytes) (used : Weight) (f r : Bytes), bs ≠ [] →
      env.decodeXcm bs = some (f, r) →
      handleXcmMessage env sender f (maxWeight - used) = .error .TooMuchWeightRequired →
      processXcmLoop env sender maxWeight (fuel + 1) bs used = (bs, used) ∧ bs = f ++ r) ∧
    (∀ (rem : Bytes) (w : Weight), rem ≠ [] →
      processXcmLoop env sender maxWeight
          ((mapGet st.inboundXcmpMessages (sender, sentAt)).length + 1)
          (mapGet st.inboundXcmpMessages (sender, sentAt)) 0 = (rem, w) →
      process_xcmp_message env sender (sentAt, .ConcatenatedVersionedXcm) maxWeight st =
        ((w, false),
          { st with inboundXcmpMessages :=
              mapInsert st.inboundXcmpMessages (sender, sentAt) rem })) ∧
    (∀ w : Weight,
      processXcmLoop env sender maxWeight
          ((mapGet st.inboundXcmpMessages (sender, sentAt)).length + 1)
          (mapGet st.inboundXcmpMessages (sender, sentAt)) 0 = ([], w) →
      process_xcmp_message env sender (sentAt, .ConcatenatedVersionedXcm) maxWeight st =
        ((w, true),
          { st with inboundXcmpMessages :=
              mapRemove st.inboundXcmpMessages (sender, sentAt) })) := by
  refine ⟨?_, ?_, ?_⟩
  · intro fuel bs used f r hbs hdec hexe
    refine ⟨?_, hpre bs f r hdec⟩
    simp [processXcmLoop, hbs, hdec, hexe]
  · intro rem w hrem hloop
    simp [process_xcmp_message, hloop, hrem]
  · intro w hloop
    simp [process_xcmp_message, hloop]

/-- C7 witness: fragment `[6]` executes (weight 5), fragment `[7]` is
refused as too heavy, so the persisted bytes are `[7, 8]` — the refused
fragment's encoding followed by the unattempted fragment — and the page
is reported non-empty. -/
theorem C7_witness :
    process_xcmp_message envRewind 3 (11, .ConcatenatedVersionedXcm) 1000 stRewind =
      ((5, false),
        { stRewind with
            inboundXcmpMessages := mapInsert stRewind.inboundXcmpMessages (3, 11) [7, 8] }) :=
  (C7_weight_limit_rewinds_and_persists envRewind 3 11 1000 stRewind
      (by
        intro bs f r h
        match bs with
        | [] => simp [envRewind, envRun, decodeSingleByte] at h
        | b :: t =>
          simp only [envRewind, envRun, decodeSingleByte, Option.some.injEq,
            Prod.mk.injEq] at h
          rw [← h.1, ← h.2]
          rfl)).2.1 [7, 8] 5 (by decide) (by decide)

/-- Unrolling `shuffleSpecGo` from the back: `k + 1` steps from `i` are
`k` steps from `i` followed by the swap at position `i + k`. -/
theorem shuffleSpecGo_succ (rng : Nat → Nat) (len : Nat) :
    ∀ (k i : Nat) (acc : List Nat),
      shuffleSpecGo rng len (k + 1) i acc =
        listSwap (shuffleSpecGo rng len k i acc) (i + k) (rng (i + k) % len) := by
  intro k
  induction k with
  | zero => intro i acc; simp [shuffleSpecGo]
  | succ k ih =>
    intro i acc
    rw [show shuffleSpecGo rng len (k + 1 + 1) i acc =
        shuffleSpecGo rng len (k + 1) (i + 1) (listSwap acc i (rng i % len)) from rfl]
    rw [ih (i + 1) (listSwap acc i (rng i % len))]
    rw [show shuffleSpecGo rng len (k + 1) i acc =
        shuffleSpecGo rng len k (i + 1) (listSwap acc i (rng i % len)) from rfl]
    have harith : i + 1 + k = i + (k + 1) := by omega
    rw [harith]

/-- C8: `create_shuffle` computes exactly the spec's reference
permutation — starting from the identity over `[0, N)`, for `i` from `0`
to `N-1` swap positions `i` and `j = rng.next_u32() mod N`.  The ChaCha
generator is abstracted as the stream `rng` of its successive `next_u32`
outputs for the block's seed (`chaChaSeed` models the zero-padding of the
parent hash to 32 bytes); both sides are pure functions of that stream
and `N`, so two runs with the same seed and `N` produce the same
permutation. -/
theorem C8_create_shuffle_matches_spec (rng : Nat → Nat) (len : Nat) :
    create_shuffle rng len = shuffleSpec rng len := by
  have key : ∀ (m : Nat) (init : List Nat),
      (List.range m).foldl (fun shuffled i => listSwap shuffled i (rng i % len)) init =
        shuffleSpecGo rng len m 0 init := by
    intro m
    induction m with
    | zero => intro init; rfl
    | succ m ih =>
      intro init
      rw [List.range_succ, List.foldl_append]
      simp only [List.foldl_cons, List.foldl_nil]
      rw [ih init, shuffleSpecGo_succ]
      simp
  exact key len (List.range len)

/-- The ingest data path at the first record for `sender`, when the queue
already holds at least `suspend_threshold` pages and the state is `Ok`:
the record is suspended, a `Suspend` signal is sent, and the page tuple is
appended only below `hard_limit`. -/
theorem inboundDataPath_suspends :
    ∀ (pre post : List InboundEntry) (e : InboundEntry) (st : XcmpState)
      (sender : ParaId) (sentAt : RelayBlockNumber) (format : XcmpMessageFormat),
      (∀ x ∈ pre, x.para ≠ sender) → e.para = sender →
      suspendThreshold ≤ e.pages.length → e.state = .Ok →
      inboundDataPath sender sentAt format (pre ++ e :: post) st =
        (pre ++ { e with
            state := InboundStatus.Suspended,
            pages := if e.pages.length < hardLimit then e.pages ++ [(sentAt, format)]
              else e.pages } :: post,
         sendSignalS sender .Suspend st) := by
  intro pre
  induction pre with
  | nil =>
    intro post e st sender sentAt format _ hpara hcount hok
    rw [List.nil_append, List.nil_append]
    show inboundDataPath sender sentAt format (e :: post) st = _
    simp only [inboundDataPath, if_pos hpara, if_pos (And.intro hcount hok)]
    by_cases h : e.pages.length < hardLimit <;> simp [h]
  | cons x xs ih =>
    intro post e st sender sentAt format hpre hpara hcount hok
    have hx : ¬x.para = sender := hpre x (by simp)
    have ih' := ih post e st sender sentAt format
      (fun y hy => hpre y (by simp [hy])) hpara hcount hok
    rw [List.cons_append,
      show inboundDataPath sender sentAt format (x :: (xs ++ e :: post)) st =
        (x :: (inboundDataPath sender sentAt format (xs ++ e :: post) st).1,
         (inboundDataPath sender sentAt format (xs ++ e :: post) st).2) from by
        simp [inboundDataPath, hx],
      ih']
    rfl

/-- The dispatch block never changes a record's para or inbound state: it
only pops the front page of the selected record when that page was fully
consumed. -/
theorem serviceStepDispatch_preserves (env : Env) (maxWeight : Weight) (c : ServiceCtx)
    (index : Nat) (hidx : c.shuffled.getD c.shuffleIndex 0 = index) :
    ((serviceStepDispatch env maxWeight c).1.get? index).map (fun x => (x.para, x.state)) =
      (c.status.get? index).map (fun x => (x.para, x.state)) := by
  simp only [serviceStepDispatch, hidx]
  by_cases h1 : (c.status.getD index default).pages = []
  · simp only [if_pos h1]
  · simp only [if_neg h1]
    by_cases hP : (process_xcmp_message env (c.status.getD index default).para
        ((c.status.getD index default).pages.headD (0, .ConcatenatedVersionedXcm))
        (serviceStepAvailable maxWeight c - c.weightUsed) c.st).1.2 = true
    · simp only [if_pos hP, get?_updateAt_self]
      cases hc : c.status.get? index <;> rfl
    · simp only [if_neg hP]

/-- The resume check fires on a record with at most `resume_threshold`
pages in state `Suspended`: the record flips to `Ok` and the state passes
through `send_signal(sender, Resume)`. -/
theorem resumeCheck_resumes (sender : ParaId) (index : Nat)
    (status : List InboundEntry) (st : XcmpState) (e₁ : InboundEntry)
    (hget : status.get? index = some e₁) (hlen : e₁.pages.length ≤ resumeThreshold)
    (hsusp : e₁.state = .Suspended) :
    ((resumeCheck sender index status st).1.get? index).map (fun x => x.state) =
      some InboundStatus.Ok ∧
    (resumeCheck sender index status st).2 = sendSignalS sender .Resume st := by
  have hgetD : status.getD index default = e₁ := getD_eq_of_get? _ _ _ _ hget
  have hcond : (status.getD index default).pages.length ≤ resumeThreshold ∧
      (status.getD index default).state = .Suspended := by
    rw [hgetD]; exact ⟨hlen, hsusp⟩
  simp only [resumeCheck, if_pos hcond]
  refine ⟨?_, by simp⟩
  rw [get?_updateAt_self, hget]
  rfl

/-- The final status list and state of `serviceStep` are those produced by
the resume check on the dispatch output (the trailing fairness branch only
chooses the shuffle bookkeeping). -/
theorem serviceStep_components (env : Env) (maxWeight : Weight) (c : ServiceCtx) :
    (serviceStep env maxWeight c).status =
      (resumeCheck (c.status.getD (c.shuffled.getD c.shuffleIndex 0) default).para
        (c.shuffled.getD c.shuffleIndex 0) (serviceStepDispatch env maxWeight c).1
        (serviceStepDispatch env maxWeight c).2.2).1 ∧
    (serviceStep env maxWeight c).st =
      (resumeCheck (c.status.getD (c.shuffled.getD c.shuffleIndex 0) default).para
        (c.shuffled.getD c.shuffleIndex 0) (serviceStepDispatch env maxWeight c).1
        (serviceStepDispatch env maxWeight c).2.2).2 := by
  constructor <;>
    · simp only [serviceStep]
      split
      · split <;> rfl
      · rfl

/-- C9: backpressure signalling.  Ingest side: at a record for `sender`
holding at least `SUSPEND_THRESHOLD = 2` queued batches in state `Ok`, the
data path sets the state to `Suspended` and routes the state through
`send_signal(sender, Suspend)` — afterwards the sender's signal page ends
with the encoded `Suspend` and the outbound record carries the signalling
flag.  Dispatch side: whenever the record selected by the shuffle holds at
most `RESUME_THRESHOLD = 1` pages **after** the dispatch step (so in
particular when the step drains a two-page queue to one) while its inbound
state is `Suspended`, the loop body flips the record to `Ok` and routes
the state through `send_signal(peer, Resume)` — the peer's signal page
ends with the encoded `Resume` and the outbound record carries the
signalling flag. -/
theorem C9_backpressure_signals :
    (∀ (pre post : List InboundEntry) (e : InboundEntry) (st : XcmpState)
      (sender : ParaId) (sentAt : RelayBlockNumber) (format : XcmpMessageFormat),
      (∀ x ∈ pre, x.para ≠ sender) → e.para = sender →
      suspendThreshold ≤ e.pages.length → e.state = .Ok →
      inboundDataPath sender sentAt format (pre ++ e :: post) st =
        (pre ++ { e with
            state := InboundStatus.Suspended,
            pages := if e.pages.length < hardLimit then e.pages ++ [(sentAt, format)]
              else e.pages } :: post,
         sendSignalS sender .Suspend st) ∧
      (∃ p, mapGet (sendSignalS sender .Suspend st).signalMessages sender =
        p ++ ChannelSignal.Suspend.encode) ∧
      hasSignalFlag (sendSignalS sender .Suspend st) sender = true) ∧
    (∀ (env : Env) (maxWeight : Weight) (c : ServiceCtx) (e₁ : InboundEntry) (index : Nat),
      c.shuffled.getD c.shuffleIndex 0 = index →
      (serviceStepDispatch env maxWeight c).1.get? index = some e₁ →
      e₁.pages.length ≤ resumeThreshold → e₁.state = .Suspended →
      ((serviceStep env maxWeight c).status.get? index).map (fun x => x.state) =
          some InboundStatus.Ok ∧
      (∃ p, mapGet (serviceStep env maxWeight c).st.signalMessages e₁.para =
        p ++ ChannelSignal.Resume.encode) ∧
      hasSignalFlag (serviceStep env maxWeight c).st e₁.para = true) := by
  constructor
  · intro pre post e st sender sentAt format hpre hpara hcount hok
    exact ⟨inboundDataPath_suspends pre post e st sender sentAt format hpre hpara hcount hok,
      sendSignalS_page_suffix sender .Suspend st,
      hasSignalFlag_sendSignalS sender .Suspend st⟩
  · intro env maxWeight c e₁ index hidx hget₁ hlen₁ hsusp₁
    have hpres := serviceStepDispatch_preserves env maxWeight c index hidx
    rw [hget₁] at hpres
    have hpar : (c.status.getD index default).para = e₁.para := by
      cases hc : c.status.get? index with
      | none => rw [hc] at hpres; simp at hpres
      | some e =>
        rw [hc] at hpres
        have h3 : ((e₁.para, e₁.state) : ParaId × InboundStatus) = (e.para, e.state) :=
          Option.some.inj hpres
        rw [getD_eq_of_get? _ _ _ _ hc]
        exact (congrArg Prod.fst h3).symm
    obtain ⟨hres₁, hres₂⟩ := resumeCheck_resumes (c.status.getD index default).para index
      (serviceStepDispatch env maxWeight c).1
      (serviceStepDispatch env maxWeight c).2.2 e₁ hget₁ hlen₁ hsusp₁
    obtain ⟨hcomp₁, hcomp₂⟩ := serviceStep_components env maxWeight c
    rw [hidx] at hcomp₁ hcomp₂
    refine ⟨?_, ?_, ?_⟩
    · rw [hcomp₁]; exact hres₁
    · rw [hcomp₂, hres₂, ← hpar]
      exact sendSignalS_page_suffix _ .Resume _
    · rw [hcomp₂, hres₂, ← hpar]
      exact hasSignalFlag_sendSignalS _ .Resume _

/-- C9 witness: the ingest half applied to a para-2 record with two queued
pages in state `Ok`, and the dispatch half applied to a one-element
shuffle selecting the suspended para-6 record of `stBackpressure`, whose
dispatch step fully consumes the front page and drains the queue from two
pages to one — the post-dispatch record `(6, Suspended, [(5, Xcm)])`
satisfies the resume condition. -/
theorem C9_witness :
    (inboundDataPath 2 9 .ConcatenatedVersionedXcm
        ([] ++ (⟨2, .Ok, [(7, .ConcatenatedVersionedXcm), (8, .ConcatenatedVersionedXcm)]⟩ :
          InboundEntry) :: []) (⟨[], [], [], [], []⟩ : XcmpState) =
      ([] ++ { (⟨2, .Ok, [(7, .ConcatenatedVersionedXcm),
            (8, .ConcatenatedVersionedXcm)]⟩ : InboundEntry) with
          state := InboundStatus.Suspended,
          pages := if [(7, XcmpMessageFormat.ConcatenatedVersionedXcm),
              (8, XcmpMessageFormat.ConcatenatedVersionedXcm)].length < hardLimit then
              [(7, XcmpMessageFormat.ConcatenatedVersionedXcm),
               (8, XcmpMessageFormat.ConcatenatedVersionedXcm)] ++ [(9, .ConcatenatedVersionedXcm)]
            else [(7, XcmpMessageFormat.ConcatenatedVersionedXcm),
              (8, XcmpMessageFormat.ConcatenatedVersionedXcm)] } :: [],
       sendSignalS 2 .Suspend ⟨[], [], [], [], []⟩) ∧
     (∃ p, mapGet (sendSignalS 2 .Suspend
        (⟨[], [], [], [], []⟩ : XcmpState)).signalMessages 2 =
       p ++ ChannelSignal.Suspend.encode) ∧
     hasSignalFlag (sendSignalS 2 .Suspend (⟨[], [], [], [], []⟩ : XcmpState)) 2 = true) ∧
    (((serviceStep envRun 1000000
        ⟨stBackpressure.inboundXcmpStatus, [0], 0, 0, 0, stBackpressure⟩).status.get? 0).map
          (fun x => x.state) = some InboundStatus.Ok ∧
     (∃ p, mapGet (serviceStep envRun 1000000
        ⟨stBackpressure.inboundXcmpStatus, [0], 0, 0, 0, stBackpressure⟩).st.signalMessages 6 =
       p ++ ChannelSignal.Resume.encode) ∧
     hasSignalFlag (serviceStep envRun 1000000
        ⟨stBackpressure.inboundXcmpStatus, [0], 0, 0, 0, stBackpressure⟩).st 6 = true) :=
  ⟨C9_backpressure_signals.1 [] []
      ⟨2, .Ok, [(7, .ConcatenatedVersionedXcm), (8, .ConcatenatedVersionedXcm)]⟩
      ⟨[], [], [], [], []⟩ 2 9 .ConcatenatedVersionedXcm (by simp) rfl (by decide) rfl,
   C9_backpressure_signals.2 envRun 1000000
      ⟨stBackpressure.inboundXcmpStatus, [0], 0, 0, 0, stBackpressure⟩
      ⟨6, .Suspended, [(5, .ConcatenatedVersionedXcm)]⟩ 0 rfl rfl (by decide) rfl⟩

/-- C10: `send_signal` is total and infallible — it always returns `ok`,
sets the signalling flag on the first outbound record for the peer
(creating `(dest, Ok, true, 0, 0)` at the end of the list when the peer
was absent), and appends the encoded signal to `SignalMessages[dest]`,
writing the `Signals` format tag first when the page was previously
empty. -/
theorem C10_send_signal_total (dest : ParaId) (signal : ChannelSignal) (st : XcmpState) :
    ∃ st', sendSignal dest signal st = .ok st' ∧
      hasSignalFlag st' dest = true ∧
      ((∀ x ∈ st.outboundXcmpStatus, x.para ≠ dest) →
        st'.outboundXcmpStatus =
          st.outboundXcmpStatus ++ [⟨dest, .Ok, true, 0, 0⟩]) ∧
      mapGet st'.signalMessages dest =
        (if mapGet st.signalMessages dest = [] then
          XcmpMessageFormat.Signals.encode ++ signal.encode
        else mapGet st.signalMessages dest ++ signal.encode) := by
  refine ⟨sendSignalS dest signal st, rfl, hasSignalFlag_sendSignalS dest signal st, ?_,
    sendSignalS_page dest signal st⟩
  intro habs
  rw [sendSignalS_outbound]
  exact setSignallingList_absent _ _ habs

/-- C10 witness: concrete application at peer 7, signal `Suspend`, empty
state. -/
theorem C10_witness :
    ∃ st', sendSignal 7 ChannelSignal.Suspend (⟨[], [], [], [], []⟩ : XcmpState) = .ok st' ∧
      hasSignalFlag st' 7 = true ∧
      ((∀ x ∈ (⟨[], [], [], [], []⟩ : XcmpState).outboundXcmpStatus, x.para ≠ 7) →
        st'.outboundXcmpStatus =
          (⟨[], [], [], [], []⟩ : XcmpState).outboundXcmpStatus ++ [⟨7, .Ok, true, 0, 0⟩]) ∧
      mapGet st'.signalMessages 7 =
        (if mapGet (⟨[], [], [], [], []⟩ : XcmpState).signalMessages 7 = [] then
          XcmpMessageFormat.Signals.encode ++ ChannelSignal.Suspend.encode
        else mapGet (⟨[], [], [], [], []⟩ : XcmpState).signalMessages 7 ++
          ChannelSignal.Suspend.encode) :=
  C10_send_signal_total 7 ChannelSignal.Suspend ⟨[], [], [], [], []⟩

end XcmpQueue
